import Mathlib

/-!
Formal model of the semantic-similarity core of the Quick-Startup-Novelty
application.  The vector math (`cosineSimilarity`, `getPositionFromVector`),
the query scan, the novelty score, the assessment rule table and the
ingestion loops are translated from `src/App.tsx`, `src/unnamed/part_001`
(the Gemini assessment service) and `src/unnamed/part_002` (the inlined
variant of the app).  JavaScript floating-point numbers are modelled as real
numbers; division by zero follows Lean's `x / 0 = 0` convention where the
source would produce NaN (only reachable for vectors of length ≤ 1, below
the embedder's dimensionality).
-/

noncomputable section

/-- One registry entry (`DBItem` in `App.tsx` / `part_002`): the pitch text,
an optional embedding vector, and the projected 2-D position. -/
structure DBItem where
  pitch : String
  embedding : Option (List ℝ)
  x : ℝ
  y : ℝ

/-- Cosine similarity helper from `App.tsx` lines 33–44 (identical in
`part_002` lines 43–54): accumulates the dot product and both squared
magnitudes over indices `i < a.length`, then returns
`mag === 0 ? 0 : dotProduct / mag` with `mag = sqrt mA * sqrt mB`.
The loop reads `b[i]` only for `i < a.length`, hence the `take`. -/
def cosineSimilarity (a b : List ℝ) : ℝ :=
  let dotProduct := ((a.zip b).map fun p => p.1 * p.2).sum
  let mA := (a.map fun x => x * x).sum
  let mB := ((b.take a.length).map fun x => x * x).sum
  let mag := Real.sqrt mA * Real.sqrt mB
  if mag = 0 then 0 else dotProduct / mag

/-- Euclidean magnitude of a vector, used to state the degenerate-case
policy of `cosineSimilarity`. -/
def magnitude (a : List ℝ) : ℝ :=
  Real.sqrt ((a.map fun x => x * x).sum)

/-- 2-D projection from `App.tsx` lines 46–58 (`getPositionFromVector`,
identical in `part_002` lines 56–67): `half = ⌊length/2⌋`, `xSum` sums the
first `half` components, `ySum` sums the rest, and BOTH sums are divided by
`half` (the first half's length), scaled by 400 and clamped to
`[-100, 100]`. -/
def getPositionFromVector (vector : List ℝ) : ℝ × ℝ :=
  let half := vector.length / 2
  let xSum := (vector.take half).sum
  let ySum := (vector.drop half).sum
  (max (-100) (min 100 (xSum / (half : ℝ) * 400)),
   max (-100) (min 100 (ySum / (half : ℝ) * 400)))

/-- Projection as the claim words it: each half's sum is averaged by that
half's own length, so the second sum is divided by `length - ⌊length/2⌋`.
This is the claim-side definition used to compare against the source's
`getPositionFromVector`. -/
def getPositionFromVectorSpec (vector : List ℝ) : ℝ × ℝ :=
  let half := vector.length / 2
  let xSum := (vector.take half).sum
  let ySum := (vector.drop half).sum
  (max (-100) (min 100 (xSum / (half : ℝ) * 400)),
   max (-100) (min 100 (ySum / ((vector.length - half : ℕ) : ℝ) * 400)))

/-- The similarity scan inlined in `handleAnalyze` (`App.tsx` lines 137–143,
identical in `part_002` lines 138–144): `maxSim` starts at `0`; each entry
with an embedding computes `sim = cosineSimilarity(userVector, embedding)`
and replaces `maxSim` only when `sim > maxSim` (strict). -/
def scanMax (userVector : List ℝ) (database : List DBItem) : ℝ :=
  database.foldl
    (fun maxSim item =>
      match item.embedding with
      | some emb =>
          let sim := cosineSimilarity userVector emb
          if maxSim < sim then sim else maxSim
      | none => maxSim)
    0

/-- The cosine similarities the scan computes, in corpus insertion order
(entries without an embedding are skipped by the `if (item.embedding)`
guard). -/
def simList (userVector : List ℝ) (database : List DBItem) : List ℝ :=
  database.filterMap fun item => item.embedding.map (cosineSimilarity userVector)

/-- JavaScript `Math.round`: rounds to the nearest integer, halves toward
positive infinity. -/
def jsRound (x : ℝ) : ℤ := ⌊x + 1/2⌋

/-- Novelty score from `App.tsx` line 146 (identical in `part_002`):
`Math.max(1, Math.min(10, Math.round((1 - maxSim) * 10)))`. -/
def noveltyScore (maxSim : ℝ) : ℤ :=
  max 1 (min 10 (jsRound ((1 - maxSim) * 10)))

/-- Claim-side formula `clamp(round((1 - maxSimilarity) * 10), 1, 10)`,
with `clamp x lo hi = min (max x lo) hi`. -/
def noveltyScoreSpec (maxSim : ℝ) : ℤ :=
  min (max (jsRound ((1 - maxSim) * 10)) 1) 10

/-- An assessment record: a title and a one-sentence description. -/
structure Assessment where
  title : String
  description : String

/-- Error kinds of the query path. `invalidInput` models the length guard's
alert-and-return; `analysisError` models the generic catch in
`handleAnalyze` (alert "Analysis error"). `indexNotReady` is modelled from
the spec: §7 names an `IndexNotReady` error for queries issued before
ingestion completes, but no code path in `src` produces it. -/
inductive QueryError where
  | invalidInput
  | indexNotReady
  | analysisError
deriving DecidableEq

/-- The `AnalysisResult` record of `types.ts`. -/
structure AnalysisResult where
  x : ℝ
  y : ℝ
  noveltyScore : ℤ
  localSimilarityScore : ℝ
  assessmentTitle : String
  assessmentDescription : String

/-- The hardcoded object built in the catch branch of
`getDetailedAssessment` (`part_001` lines 46–52). -/
def geminiFallbackAssessment (maxSimilarity : ℝ) : Assessment :=
  { title := if maxSimilarity < 0.5 then "Unique Positioning" else "Moderate Similarity",
    description := "Analysis complete. Your idea has been mapped against established market patterns." }

/-- `getDetailedAssessment` of `part_001` lines 10–53.  `remote` models the
`ai.models.generateContent` call, returning the response text or a thrown
network/service error; since that `await` sits OUTSIDE the `try` block, a
remote error propagates to the caller.  `parse` models the `try` block's
JSON decoding of the trimmed response text; only a `parse` failure reaches
the catch branch, which returns `geminiFallbackAssessment`. -/
def getDetailedAssessment (remote : String → ℝ → Except Unit String)
    (parse : String → Option Assessment)
    (pitch : String) (maxSimilarity : ℝ) : Except Unit Assessment :=
  match remote pitch maxSimilarity with
  | .error e => .error e
  | .ok text =>
      match parse text with
      | some a => .ok a
      | none => .ok (geminiFallbackAssessment maxSimilarity)

/-- The component refs read by `handleAnalyze`: `extractorRef.current`
(`none` while the model is still loading; calling it then throws),
`databaseRef.current`, and the `isReady` flag — which `handleAnalyze`
never consults. -/
structure EngineState where
  extractor : Option (String → Except Unit (List ℝ))
  database : List DBItem
  isReady : Bool

/-- `handleAnalyze` of `App.tsx` lines 123–165: the length guard
(`!pitch || pitch.length < 15`) alerts and returns before any embedding
call; otherwise the `try` block embeds the pitch, projects it, scans the
database, derives the novelty score and calls `getDetailedAssessment`; any
exception — a null extractor, an embedder failure, or a remote-assessment
failure — is caught by the single generic catch (alert "Analysis error"). -/
def handleAnalyze (st : EngineState) (remote : String → ℝ → Except Unit String)
    (parse : String → Option Assessment) (pitch : String) :
    Except QueryError AnalysisResult :=
  if pitch = "" ∨ pitch.length < 15 then .error .invalidInput
  else
    match st.extractor with
    | none => .error .analysisError
    | some embed =>
        match embed pitch with
        | .error _ => .error .analysisError
        | .ok userVector =>
            match getDetailedAssessment remote parse pitch
                (scanMax userVector st.database) with
            | .error _ => .error .analysisError
            | .ok a =>
                .ok { x := (getPositionFromVector userVector).1,
                      y := (getPositionFromVector userVector).2,
                      noveltyScore := noveltyScore (scanMax userVector st.database),
                      localSimilarityScore := scanMax userVector st.database,
                      assessmentTitle := a.title,
                      assessmentDescription := a.description }

/-- The assessment rule table inlined in `handleAnalyze` of `part_002`
lines 148–157: defaults to "Moderate Novelty", overridden to
"Highly Saturated" when `maxSim > 0.8` and to "High Innovation Area" when
`maxSim < 0.4`. -/
def assessmentRule (maxSim : ℝ) : Assessment :=
  if maxSim > 0.8 then
    { title := "Highly Saturated",
      description := "Extremely high similarity detected. This concept is very similar to existing market models." }
  else if maxSim < 0.4 then
    { title := "High Innovation Area",
      description := "Your idea is semantically distinct from our registry, suggesting a strong unique value prop." }
  else
    { title := "Moderate Novelty",
      description := "Your pitch shows some unique angles but overlaps with established semantic patterns." }

/-- `handleAnalyze` of `part_002` lines 124–171: same guard, embedding and
scan as `App.tsx`, but the assessment comes from the inlined rule table
instead of the remote service. -/
def handleAnalyzeInline (st : EngineState) (pitch : String) :
    Except QueryError AnalysisResult :=
  if pitch = "" ∨ pitch.length < 15 then .error .invalidInput
  else
    match st.extractor with
    | none => .error .analysisError
    | some embed =>
        match embed pitch with
        | .error _ => .error .analysisError
        | .ok userVector =>
            .ok { x := (getPositionFromVector userVector).1,
                  y := (getPositionFromVector userVector).2,
                  noveltyScore := noveltyScore (scanMax userVector st.database),
                  localSimilarityScore := scanMax userVector st.database,
                  assessmentTitle := (assessmentRule (scanMax userVector st.database)).title,
                  assessmentDescription :=
                    (assessmentRule (scanMax userVector st.database)).description }

/-- Per-row cleanup of the ingestion loops: the regex replace strips one
leading and one trailing quote character, then the row is trimmed. -/
def rowText (r : String) : String :=
  let s1 := if r.startsWith "\"" then r.drop 1 else r
  let s2 := if s1.endsWith "\"" then s1.dropRight 1 else s1
  s2.trim

/-- A successfully embedded registry entry as pushed by both ingestion
loops: the cleaned text, its embedding, and its projected position. -/
def indexedEntry (text : String) (vector : List ℝ) : DBItem :=
  { pitch := text, embedding := some vector,
    x := (getPositionFromVector vector).1, y := (getPositionFromVector vector).2 }

/-- Outcome of ingestion: the database committed to `databaseRef` and
whether `setIsReady(true)` was reached. -/
structure IngestResult where
  database : List DBItem
  isReady : Bool

/-- The indexing loop of `App.tsx` lines 95–107: the body has NO per-item
try/catch, so the first failing embedder call throws out of the loop. -/
def indexRows (embed : String → Except Unit (List ℝ)) :
    List String → Except Unit (List DBItem)
  | [] => .ok []
  | r :: rest =>
      match embed (rowText r) with
      | .error e => .error e
      | .ok vector =>
          match indexRows embed rest with
          | .error e => .error e
          | .ok items => .ok (indexedEntry (rowText r) vector :: items)

/-- `loadAndIndexData` of `App.tsx` lines 60–117, restricted to the
indexing phase: on any embedding failure the outer catch fires, so
`databaseRef` keeps its initial `[]` and `setIsReady(true)` (which follows
the loop) is never reached. -/
def loadAndIndexData (embed : String → Except Unit (List ℝ))
    (rows : List String) : IngestResult :=
  match indexRows embed rows with
  | .ok items => { database := items, isReady := true }
  | .error _ => { database := [], isReady := false }

/-- The indexing loop of `part_002` lines 92–108: the per-item try/catch
skips a failing row (console.warn) and continues with the rest. -/
def indexRowsSkip (embed : String → Except Unit (List ℝ)) :
    List String → List DBItem
  | [] => []
  | r :: rest =>
      match embed (rowText r) with
      | .error _ => indexRowsSkip embed rest
      | .ok vector => indexedEntry (rowText r) vector :: indexRowsSkip embed rest

/-- `loadAndIndexData` of `part_002` lines 69–118, restricted to the
indexing phase: every row is attempted, failures are skipped, and
`setIsReady(true)` is always reached. -/
def loadAndIndexDataSkip (embed : String → Except Unit (List ℝ))
    (rows : List String) : IngestResult :=
  { database := indexRowsSkip embed rows, isReady := true }

lemma sum_map_sq_nonneg (a : List ℝ) : 0 ≤ (a.map fun x => x * x).sum :=
  List.sum_nonneg (by
    intro x hx
    obtain ⟨y, _, rfl⟩ := List.mem_map.mp hx
    exact mul_self_nonneg y)

lemma magnitude_eq_zero_iff (a : List ℝ) :
    magnitude a = 0 ↔ (a.map fun x => x * x).sum = 0 := by
  unfold magnitude
  rw [Real.sqrt_eq_zero (sum_map_sq_nonneg a)]

lemma cosineSimilarity_eq_zero_of_mag (a b : List ℝ) (hlen : a.length = b.length)
    (h : magnitude a = 0 ∨ magnitude b = 0) : cosineSimilarity a b = 0 := by
  unfold cosineSimilarity
  have htake : b.take a.length = b := by
    rw [hlen]; exact List.take_length b
  rcases h with h | h
  · rw [magnitude_eq_zero_iff] at h
    simp [h]
  · rw [magnitude_eq_zero_iff] at h
    simp [htake, h]

lemma magnitude_replicate_zero (n : ℕ) : magnitude (List.replicate n (0 : ℝ)) = 0 := by
  unfold magnitude
  rw [List.map_replicate]
  norm_num

/-- C3: if either argument of `cosineSimilarity` has Euclidean magnitude
zero, the guard `mag === 0` fires and the function returns exactly `0`
(no division by zero occurs); in particular the all-zero vector has
similarity `0` to every vector of the same length, including itself. -/
theorem cosineSimilarity_degenerate (a b : List ℝ) (hlen : a.length = b.length)
    (h : magnitude a = 0 ∨ magnitude b = 0) :
    cosineSimilarity a b = 0 ∧
    cosineSimilarity (List.replicate b.length (0 : ℝ)) b = 0 ∧
    cosineSimilarity (List.replicate a.length (0 : ℝ)) (List.replicate a.length (0 : ℝ)) = 0 := by
  refine ⟨cosineSimilarity_eq_zero_of_mag a b hlen h, ?_, ?_⟩
  · exact cosineSimilarity_eq_zero_of_mag _ b (by simp)
      (Or.inl (magnitude_replicate_zero _))
  · exact cosineSimilarity_eq_zero_of_mag _ _ (by simp)
      (Or.inl (magnitude_replicate_zero _))

/-- Witness for C3: the zero vector `[0, 0]` has magnitude `0`, and its
cosine similarity with `[3, 4]` evaluates to `0`. -/
theorem cosineSimilarity_degenerate_witness :
    magnitude [(0 : ℝ), 0] = 0 ∧ cosineSimilarity [(0 : ℝ), 0] [3, 4] = 0 := by
  have hmag : magnitude [(0 : ℝ), 0] = 0 := by
    unfold magnitude; norm_num
  exact ⟨hmag, (cosineSimilarity_degenerate [(0 : ℝ), 0] [3, 4] (by simp)
    (Or.inl hmag)).1⟩

/-- C4 counterexample: on the odd-length vector `[0, 1/10, 1/10]` the source
divides the second half's sum by `half = 1` (the FIRST half's length),
yielding `y = 80`, whereas averaging the second half by its own length `2`
(as the claim words it) yields `y = 40`; the two projections differ. -/
theorem getPositionFromVector_secondHalf_average_counterexample :
    getPositionFromVector [(0 : ℝ), 1/10, 1/10] = (0, 80) ∧
    getPositionFromVectorSpec [(0 : ℝ), 1/10, 1/10] = (0, 40) ∧
    getPositionFromVector [(0 : ℝ), 1/10, 1/10] ≠
      getPositionFromVectorSpec [(0 : ℝ), 1/10, 1/10] := by
  refine ⟨?_, ?_, ?_⟩
  · unfold getPositionFromVector
    norm_num [Prod.ext_iff]
  · unfold getPositionFromVectorSpec
    norm_num [Prod.ext_iff]
  · unfold getPositionFromVector getPositionFromVectorSpec
    norm_num [Prod.ext_iff]

/-- C4 (amended): both sums are averaged by `⌊D/2⌋`, the first half's
length (not each by its own half's length); for even-dimensional vectors —
in particular the embedder's D = 384 — this coincides with the claim's
per-half averaging, and the projection is a pure function of the vector
whose output is always clamped into `[-100,100] × [-100,100]`. -/
theorem getPositionFromVector_range_even (v : List ℝ) :
    (-100 ≤ (getPositionFromVector v).1 ∧ (getPositionFromVector v).1 ≤ 100 ∧
     -100 ≤ (getPositionFromVector v).2 ∧ (getPositionFromVector v).2 ≤ 100) ∧
    (v.length % 2 = 0 → getPositionFromVector v = getPositionFromVectorSpec v) := by
  constructor
  · unfold getPositionFromVector
    refine ⟨le_max_left _ _, max_le (by norm_num) (min_le_left _ _),
      le_max_left _ _, max_le (by norm_num) (min_le_left _ _)⟩
  · intro h
    have hlen : v.length - v.length / 2 = v.length / 2 := by omega
    simp only [getPositionFromVector, getPositionFromVectorSpec]
    rw [hlen]

/-- Witness for C4: the even-length vector `[1/10, 3/10]` satisfies the
parity hypothesis, and the source projection agrees with the claim-side
per-half-averaged projection there. -/
theorem getPositionFromVector_range_even_witness :
    getPositionFromVector [(1 : ℝ)/10, 3/10] =
      getPositionFromVectorSpec [(1 : ℝ)/10, 3/10] :=
  (getPositionFromVector_range_even [(1 : ℝ)/10, 3/10]).2 (by simp)

lemma scan_step_eq_max (m s : ℝ) : (if m < s then s else m) = max m s := by
  rcases lt_or_ge m s with h | h
  · rw [if_pos h, max_eq_right h.le]
  · rw [if_neg (not_lt.mpr h), max_eq_left h]

lemma scanMax_eq_foldl_max (q : List ℝ) (db : List DBItem) :
    ∀ init : ℝ,
      db.foldl
        (fun maxSim item =>
          match item.embedding with
          | some emb =>
              let sim := cosineSimilarity q emb
              if maxSim < sim then sim else maxSim
          | none => maxSim)
        init
      = (db.filterMap fun item => item.embedding.map (cosineSimilarity q)).foldl max init := by
  induction db with
  | nil => intro init; rfl
  | cons hd tl ih =>
      intro init
      rw [List.foldl_cons, List.filterMap_cons]
      cases h : hd.embedding with
      | none =>
          simp only [h, Option.map_none']
          exact ih init
      | some emb =>
          simp only [h, Option.map_some']
          rw [scan_step_eq_max, List.foldl_cons, ih]

lemma scanMax_eq (q : List ℝ) (db : List DBItem) :
    scanMax q db = (simList q db).foldl max 0 := by
  unfold scanMax simList
  exact scanMax_eq_foldl_max q db 0

lemma foldl_max_init_le (l : List ℝ) : ∀ init : ℝ, init ≤ l.foldl max init := by
  induction l with
  | nil => intro init; simp
  | cons a l ih =>
      intro init
      exact le_trans (le_max_left init a) (ih (max init a))

lemma foldl_max_le_of_mem (l : List ℝ) :
    ∀ init x : ℝ, x ∈ l → x ≤ l.foldl max init := by
  induction l with
  | nil => intro _ x hx; cases hx
  | cons a l ih =>
      intro init x hx
      rcases List.mem_cons.mp hx with rfl | h
      · exact le_trans (le_max_right init x) (foldl_max_init_le l _)
      · exact ih _ x h

lemma foldl_max_mem_or_init (l : List ℝ) :
    ∀ init : ℝ, l.foldl max init = init ∨ l.foldl max init ∈ l := by
  induction l with
  | nil => intro init; left; rfl
  | cons a l ih =>
      intro init
      rw [List.foldl_cons]
      rcases ih (max init a) with h | h
      · rw [h]
        rcases max_choice init a with h' | h'
        · exact Or.inl h'
        · exact Or.inr (by rw [h']; exact List.mem_cons_self a l)
      · exact Or.inr (List.mem_cons_of_mem a h)

lemma cosineSimilarity_one_negone : cosineSimilarity [(1 : ℝ)] [(-1 : ℝ)] = -1 := by
  unfold cosineSimilarity
  norm_num

/-- C1 counterexample: for the query embedding `[1]` and a single corpus
entry with embedding `[-1]`, the entry's cosine similarity — hence the
maximum over all entries — is `-1`, but the scan reports `0` (its running
maximum starts at `0` and is never replaced), so the similarity field is not
the maximum cosine similarity over the corpus. -/
theorem scanMax_misses_negative_maximum :
    cosineSimilarity [(1 : ℝ)] [(-1 : ℝ)] = -1 ∧
    simList [(1 : ℝ)] [⟨"negative entry", some [(-1 : ℝ)], 0, 0⟩] = [-1] ∧
    scanMax [(1 : ℝ)] [⟨"negative entry", some [(-1 : ℝ)], 0, 0⟩] = 0 ∧
    (0 : ℝ) ≠ -1 := by
  refine ⟨cosineSimilarity_one_negone, ?_, ?_, by norm_num⟩
  · simp [simList, cosineSimilarity_one_negone]
  · simp [scanMax, cosineSimilarity_one_negone]

/-- C1 (amended): the similarity field is the maximum of `0` and the cosine
similarities of all corpus entries: the scan is exhaustive — every entry's
similarity is a lower bound of the result, with no early termination — and
the result is either attained by some entry or is the `0` the running
maximum was initialised with; whenever some entry has nonnegative
similarity this equals the exact maximum cosine similarity over the
corpus. -/
theorem scanMax_characterization (q : List ℝ) (db : List DBItem) :
    (∀ s ∈ simList q db, s ≤ scanMax q db) ∧
    (scanMax q db = 0 ∨ scanMax q db ∈ simList q db) := by
  rw [scanMax_eq]
  exact ⟨fun s hs => foldl_max_le_of_mem _ 0 s hs, foldl_max_mem_or_init _ 0⟩

/-- Witness for C1: a corpus whose single entry has similarity `1` to the
query; that similarity is a member of the scan's similarity list and is
bounded by the scan result. -/
theorem scanMax_characterization_witness :
    cosineSimilarity [(1 : ℝ)] [(1 : ℝ)] ∈
      simList [(1 : ℝ)] [⟨"unit entry", some [(1 : ℝ)], 0, 0⟩] ∧
    cosineSimilarity [(1 : ℝ)] [(1 : ℝ)] ≤
      scanMax [(1 : ℝ)] [⟨"unit entry", some [(1 : ℝ)], 0, 0⟩] := by
  have hmem : cosineSimilarity [(1 : ℝ)] [(1 : ℝ)] ∈
      simList [(1 : ℝ)] [⟨"unit entry", some [(1 : ℝ)], 0, 0⟩] := by
    simp [simList]
  exact ⟨hmem,
    (scanMax_characterization [(1 : ℝ)] [⟨"unit entry", some [(1 : ℝ)], 0, 0⟩]).1 _ hmem⟩

/-- C10: the similarity the scan reports is never negative — the running
maximum starts at `0` and is only replaced by strictly greater values — and
when every corpus entry has strictly negative cosine similarity to the
query the scan reports `0`, not the true (negative) maximum. -/
theorem scanMax_nonneg (q : List ℝ) (db : List DBItem) :
    0 ≤ scanMax q db ∧ ((∀ s ∈ simList q db, s < 0) → scanMax q db = 0) := by
  rw [scanMax_eq]
  refine ⟨foldl_max_init_le _ 0, fun hneg => ?_⟩
  rcases foldl_max_mem_or_init (simList q db) 0 with h | h
  · exact h
  · exact absurd (foldl_max_init_le (simList q db) 0) (not_le.mpr (hneg _ h))

/-- Witness for C10: against the all-negative-similarity corpus
consisting of the single embedding `[-1]`, the scan applied to the query
`[1]` reports `0`. -/
theorem scanMax_nonneg_witness :
    scanMax [(1 : ℝ)] [⟨"opposite entry", some [(-1 : ℝ)], 0, 0⟩] = 0 :=
  (scanMax_nonneg [(1 : ℝ)] [⟨"opposite entry", some [(-1 : ℝ)], 0, 0⟩]).2
    (by simp [simList, cosineSimilarity_one_negone])

lemma noveltyScore_eq_spec (s : ℝ) : noveltyScore s = noveltyScoreSpec s := by
  unfold noveltyScore noveltyScoreSpec
  generalize jsRound ((1 - s) * 10) = k
  omega

lemma noveltyScore_bounds (s : ℝ) :
    1 ≤ noveltyScore s ∧ noveltyScore s ≤ 10 := by
  unfold noveltyScore
  generalize jsRound ((1 - s) * 10) = k
  omega

/-- C2: whenever a query succeeds (in either variant of `handleAnalyze`),
the returned `noveltyScore` equals
`clamp(round((1 - maxSimilarity) * 10), 1, 10)` applied to the returned
similarity, and hence is an integer between 1 and 10 inclusive. -/
theorem noveltyScore_clamped (st : EngineState)
    (remote : String → ℝ → Except Unit String) (parse : String → Option Assessment)
    (pitch : String) (r r' : AnalysisResult) :
    (handleAnalyze st remote parse pitch = .ok r →
      r.noveltyScore = noveltyScoreSpec r.localSimilarityScore ∧
      1 ≤ r.noveltyScore ∧ r.noveltyScore ≤ 10) ∧
    (handleAnalyzeInline st pitch = .ok r' →
      r'.noveltyScore = noveltyScoreSpec r'.localSimilarityScore ∧
      1 ≤ r'.noveltyScore ∧ r'.noveltyScore ≤ 10) := by
  constructor
  · intro h
    unfold handleAnalyze at h
    split at h
    · exact Except.noConfusion h
    · split at h
      · exact Except.noConfusion h
      · split at h
        · exact Except.noConfusion h
        · split at h
          · exact Except.noConfusion h
          · injection h with h'
            subst h'
            exact ⟨noveltyScore_eq_spec _, (noveltyScore_bounds _).1,
              (noveltyScore_bounds _).2⟩
  · intro h
    unfold handleAnalyzeInline at h
    split at h
    · exact Except.noConfusion h
    · split at h
      · exact Except.noConfusion h
      · split at h
        · exact Except.noConfusion h
        · injection h with h'
          subst h'
          exact ⟨noveltyScore_eq_spec _, (noveltyScore_bounds _).1,
            (noveltyScore_bounds _).2⟩

/-- Witness for C2: a concrete successful query in each variant (empty
corpus, embedder returning the empty vector), whose returned novelty score
is 10 = clamp(round((1 - 0) * 10), 1, 10). -/
theorem noveltyScore_clamped_witness :
    handleAnalyze ⟨some fun _ => .ok [], [], true⟩ (fun _ _ => .ok "remote text")
        (fun _ => some ⟨"Remote Title", "Remote description."⟩)
        "a valid pitch text" =
      .ok ⟨0, 0, 10, 0, "Remote Title", "Remote description."⟩ ∧
    (10 : ℤ) = noveltyScoreSpec 0 ∧ (1 : ℤ) ≤ 10 ∧ (10 : ℤ) ≤ 10 := by
  have hguard : ¬("a valid pitch text" = "" ∨ ("a valid pitch text").length < 15) := by
    decide
  have hpos : getPositionFromVector [] = ((0 : ℝ), (0 : ℝ)) := by
    unfold getPositionFromVector
    norm_num
  have hnov : noveltyScore 0 = 10 := by
    unfold noveltyScore jsRound
    norm_num
  have h : handleAnalyze ⟨some fun _ => .ok [], [], true⟩
      (fun _ _ => .ok "remote text")
      (fun _ => some ⟨"Remote Title", "Remote description."⟩)
      "a valid pitch text" =
      .ok ⟨0, 0, 10, 0, "Remote Title", "Remote description."⟩ := by
    unfold handleAnalyze getDetailedAssessment
    rw [if_neg hguard]
    simp only [scanMax, List.foldl_nil, hnov, hpos]
  have hmain := (noveltyScore_clamped ⟨some fun _ => .ok [], [], true⟩
      (fun _ _ => .ok "remote text")
      (fun _ => some ⟨"Remote Title", "Remote description."⟩)
      "a valid pitch text" ⟨0, 0, 10, 0, "Remote Title", "Remote description."⟩
      ⟨0, 0, 10, 0, "Remote Title", "Remote description."⟩).1 h
  exact ⟨h, hmain.1, hmain.2.1, hmain.2.2⟩

/-- C5: a query whose text is shorter than 15 characters fails with
`InvalidInput` in both variants, for EVERY engine state and every embedder —
in particular the result does not depend on the embedder, which is
therefore never invoked by that call. -/
theorem query_short_input (st : EngineState)
    (remote : String → ℝ → Except Unit String) (parse : String → Option Assessment)
    (pitch : String) (h : pitch.length < 15) :
    handleAnalyze st remote parse pitch = .error .invalidInput ∧
    handleAnalyzeInline st pitch = .error .invalidInput := by
  constructor
  · unfold handleAnalyze
    rw [if_pos (Or.inr h)]
  · unfold handleAnalyzeInline
    rw [if_pos (Or.inr h)]

/-- Witness for C5: the 9-character pitch "too short" is rejected with
`InvalidInput` by both variants. -/
theorem query_short_input_witness :
    handleAnalyze ⟨some fun _ => .ok [1], [], true⟩ (fun _ _ => .ok "t")
        (fun _ => none) "too short" = .error .invalidInput ∧
    handleAnalyzeInline ⟨some fun _ => .ok [1], [], true⟩ "too short" =
      .error .invalidInput :=
  query_short_input ⟨some fun _ => .ok [1], [], true⟩ (fun _ _ => .ok "t")
    (fun _ => none) "too short" (by decide)

/-- C6 counterexample: a valid-length query issued before the embedder has
loaded (`extractorRef.current` still null, `isReady` false) fails with the
GENERIC `analysisError` — the single catch-all of `handleAnalyze` — which
is a different error from the spec's distinct `IndexNotReady`. -/
theorem query_before_ready_not_indexNotReady :
    handleAnalyze ⟨none, [], false⟩ (fun _ _ => .ok "raw") (fun _ => none)
      "query before readiness" = .error .analysisError ∧
    QueryError.analysisError ≠ QueryError.indexNotReady := by
  constructor
  · unfold handleAnalyze
    rw [if_neg (by decide)]
  · decide

/-- C6 (amended): `handleAnalyze` performs no readiness check at all
(readiness is only enforced by the UI overlay): issued before the embedder
is initialized, a query fails with the generic `analysisError` — not a
distinct `IndexNotReady` — for every value of the `isReady` flag; issued
after the embedder loads but before indexing commits the database, a query
races the build: it runs against the still-empty index and succeeds with
similarity `scanMax userVector [] = 0`. -/
theorem handleAnalyze_no_readiness_gate (db : List DBItem)
    (remote : String → ℝ → Except Unit String) (parse : String → Option Assessment)
    (pitch : String) (hp : ¬(pitch = "" ∨ pitch.length < 15)) :
    (∀ ready : Bool,
      handleAnalyze ⟨none, db, ready⟩ remote parse pitch = .error .analysisError) ∧
    (∀ (embed : String → Except Unit (List ℝ)) (v : List ℝ) (a : Assessment),
      embed pitch = .ok v →
      getDetailedAssessment remote parse pitch (scanMax v []) = .ok a →
      handleAnalyze ⟨some embed, [], false⟩ remote parse pitch =
        .ok ⟨(getPositionFromVector v).1, (getPositionFromVector v).2,
             noveltyScore (scanMax v []), scanMax v [],
             a.title, a.description⟩) ∧
    (∀ v : List ℝ, scanMax v [] = 0) := by
  refine ⟨?_, ?_, fun v => rfl⟩
  · intro ready
    unfold handleAnalyze
    rw [if_neg hp]
  · intro embed v a hv ha
    unfold handleAnalyze
    rw [if_neg hp]
    simp only [hv, ha]

/-- Witness for C6: before the embedder is initialized, a concrete
valid-length query fails with the generic `analysisError` whatever the
`isReady` flag says. -/
theorem handleAnalyze_no_readiness_gate_witness :
    handleAnalyze ⟨none, [], true⟩ (fun _ _ => .ok "raw") (fun _ => none)
      "a pitch issued too early" = .error .analysisError :=
  (handleAnalyze_no_readiness_gate [] (fun _ _ => .ok "raw") (fun _ => none)
    "a pitch issued too early" (by decide)).1 true

/-- C8: the inlined deterministic assessment rule table of `part_002`
yields "Highly Saturated" for similarity above 0.8, "High Innovation Area"
below 0.4, and "Moderate Novelty" otherwise; in particular 0.9, 0.1 and
0.6 map to those three titles respectively. -/
theorem assessmentRule_bands (s : ℝ) :
    (s > 0.8 → (assessmentRule s).title = "Highly Saturated") ∧
    (s < 0.4 → (assessmentRule s).title = "High Innovation Area") ∧
    (0.4 ≤ s → s ≤ 0.8 → (assessmentRule s).title = "Moderate Novelty") ∧
    (assessmentRule 0.9).title = "Highly Saturated" ∧
    (assessmentRule 0.1).title = "High Innovation Area" ∧
    (assessmentRule 0.6).title = "Moderate Novelty" := by
  refine ⟨?_, ?_, ?_, ?_, ?_, ?_⟩
  · intro h
    unfold assessmentRule
    rw [if_pos h]
  · intro h
    unfold assessmentRule
    rw [if_neg (not_lt.mpr (le_of_lt (h.trans (by norm_num)))), if_pos h]
  · intro h1 h2
    unfold assessmentRule
    rw [if_neg (not_lt.mpr h2), if_neg (not_lt.mpr h1)]
  · unfold assessmentRule
    norm_num
  · unfold assessmentRule
    norm_num
  · unfold assessmentRule
    norm_num

/-- Witness for C8: the three sample similarities of the claim, with the
band hypotheses discharged numerically. -/
theorem assessmentRule_bands_witness :
    (assessmentRule 0.9).title = "Highly Saturated" ∧
    (assessmentRule 0.1).title = "High Innovation Area" ∧
    (assessmentRule 0.55).title = "Moderate Novelty" :=
  ⟨(assessmentRule_bands 0.9).1 (by norm_num),
   (assessmentRule_bands 0.1).2.1 (by norm_num),
   (assessmentRule_bands 0.55).2.2.1 (by norm_num) (by norm_num)⟩

/-- C9 counterexample: with an embedder that succeeds, a failure of the
remote assessment call (`ai.models.generateContent`, which sits OUTSIDE the
`try` of `getDetailedAssessment`) propagates into `handleAnalyze`'s generic
catch: the query FAILS with `analysisError` instead of succeeding with the
fallback rule-table assessment. -/
theorem remote_failure_fails_query :
    getDetailedAssessment (fun _ _ => .error ()) (fun _ => none)
      "an assessment-bound pitch" 0 = .error () ∧
    handleAnalyze ⟨some fun _ => .ok [1], [], true⟩ (fun _ _ => .error ())
      (fun _ => none) "an assessment-bound pitch" = .error .analysisError := by
  constructor
  · rfl
  · unfold handleAnalyze getDetailedAssessment
    rw [if_neg (by decide)]

/-- C9 (amended): only a failure to PARSE the remote generator's response
is recovered locally — and with the service's own hardcoded fallback object
(title chosen by a 0.5 similarity threshold), not the rule table; a failure
of the remote call itself propagates out of `getDetailedAssessment`
(the `await` is outside the `try`) and fails the whole query with the
generic `analysisError`. -/
theorem assessment_failure_policy (remote : String → ℝ → Except Unit String)
    (parse : String → Option Assessment) (pitch : String) (sim : ℝ) :
    (∀ e, remote pitch sim = .error e →
      getDetailedAssessment remote parse pitch sim = .error e) ∧
    (∀ t, remote pitch sim = .ok t → parse t = none →
      getDetailedAssessment remote parse pitch sim =
        .ok (geminiFallbackAssessment sim)) ∧
    (∀ (embed : String → Except Unit (List ℝ)) (db : List DBItem) (ready : Bool)
        (v : List ℝ) (e : Unit),
      ¬(pitch = "" ∨ pitch.length < 15) → embed pitch = .ok v →
      remote pitch (scanMax v db) = .error e →
      handleAnalyze ⟨some embed, db, ready⟩ remote parse pitch =
        .error .analysisError) := by
  refine ⟨?_, ?_, ?_⟩
  · intro e he
    unfold getDetailedAssessment
    rw [he]
  · intro t ht hp
    unfold getDetailedAssessment
    simp only [ht, hp]
  · intro embed db ready v e hguard hv hr
    unfold handleAnalyze getDetailedAssessment
    rw [if_neg hguard]
    simp only [hv, hr]

/-- Witness for C9: a remote response that fails to parse is replaced by
the service's hardcoded fallback (here similarity 0.9 ≥ 0.5, so title
"Moderate Similarity"), and a failing remote call makes a concrete query
fail with the generic error. -/
theorem assessment_failure_policy_witness :
    getDetailedAssessment (fun _ _ => .ok "unparsable") (fun _ => none)
      "fallback witness pitch" 0.9 = .ok (geminiFallbackAssessment 0.9) ∧
    handleAnalyze ⟨some fun _ => .ok [], [], true⟩ (fun _ _ => .error ())
      (fun _ => none) "fallback witness pitch" = .error .analysisError :=
  ⟨(assessment_failure_policy (fun _ _ => .ok "unparsable") (fun _ => none)
      "fallback witness pitch" 0.9).2.1 "unparsable" rfl rfl,
   (assessment_failure_policy (fun _ _ => .error ()) (fun _ => none)
      "fallback witness pitch" 0).2.2 (fun _ => .ok []) [] true [] ()
      (by decide) rfl rfl⟩

lemma indexRowsSkip_eq_filterMap (embed : String → Except Unit (List ℝ)) :
    ∀ rows : List String,
      indexRowsSkip embed rows =
        rows.filterMap fun r =>
          match embed (rowText r) with
          | .ok v => some (indexedEntry (rowText r) v)
          | .error _ => none := by
  intro rows
  induction rows with
  | nil => rfl
  | cons r rest ih =>
      rw [List.filterMap_cons]
      cases h : embed (rowText r) with
      | error e =>
          simp only [h]
          unfold indexRowsSkip
          rw [h]
          exact ih
      | ok v =>
          simp only [h]
          unfold indexRowsSkip
          rw [h, ih]

lemma indexRows_error_of_exists (embed : String → Except Unit (List ℝ)) :
    ∀ rows : List String, (∃ r ∈ rows, ∃ e, embed (rowText r) = .error e) →
      ∃ e, indexRows embed rows = .error e := by
  intro rows
  induction rows with
  | nil => rintro ⟨r, hr, -⟩; cases hr
  | cons r rest ih =>
      rintro ⟨r', hr', e, he⟩
      cases h : embed (rowText r) with
      | error e0 =>
          refine ⟨e0, ?_⟩
          unfold indexRows
          rw [h]
      | ok v =>
          rcases List.mem_cons.mp hr' with rfl | hmem
          · rw [h] at he
            exact Except.noConfusion he
          · obtain ⟨e1, he1⟩ := ih ⟨r', hmem, e, he⟩
            refine ⟨e1, ?_⟩
            unfold indexRows
            rw [h, he1]

/-- C7 counterexample: in the `App.tsx` ingestion loop (no per-item
try/catch) a single embedding failure aborts the WHOLE build — with an
embedder failing on the rows given, no entry is committed and
`setIsReady(true)` is never reached, so the index does not become ready
after every input was attempted. -/
theorem ingestion_abort_counterexample :
    loadAndIndexData (fun _ => .error ()) ["pitch row alpha", "pitch row beta"] =
      ⟨[], false⟩ ∧
    (loadAndIndexData (fun _ => .error ())
      ["pitch row alpha", "pitch row beta"]).isReady ≠ true := by
  refine ⟨rfl, ?_⟩
  exact fun h => Bool.noConfusion h

/-- C7 (amended): the two ingestion loops in the repository diverge.  In
the `part_002` variant the claim holds: a failing entry is skipped,
ingestion continues with every remaining entry (the database is exactly
the successfully embedded rows, in order) and the index always becomes
ready.  In the `App.tsx` variant a single per-item embedding failure
aborts the whole build: the database stays empty and the index never
becomes ready. -/
theorem ingestion_failure_policy (embed : String → Except Unit (List ℝ))
    (rows : List String) :
    (loadAndIndexDataSkip embed rows).isReady = true ∧
    (loadAndIndexDataSkip embed rows).database =
      (rows.filterMap fun r =>
        match embed (rowText r) with
        | .ok v => some (indexedEntry (rowText r) v)
        | .error _ => none) ∧
    ((∃ r ∈ rows, ∃ e, embed (rowText r) = .error e) →
      loadAndIndexData embed rows = ⟨[], false⟩) := by
  refine ⟨rfl, indexRowsSkip_eq_filterMap embed rows, fun hex => ?_⟩
  obtain ⟨e, he⟩ := indexRows_error_of_exists embed rows hex
  unfold loadAndIndexData
  rw [he]

/-- Witness for C7: with an embedder failing on every text, the
skip-variant still reaches readiness while the `App.tsx` variant aborts
with an empty, never-ready index. -/
theorem ingestion_failure_policy_witness :
    loadAndIndexData (fun _ => .error ()) ["pitch row gamma"] = ⟨[], false⟩ ∧
    (loadAndIndexDataSkip (fun _ => .error ()) ["pitch row gamma"]).isReady = true :=
  ⟨(ingestion_failure_policy (fun _ => .error ()) ["pitch row gamma"]).2.2
      ⟨"pitch row gamma", by simp, (), rfl⟩,
   (ingestion_failure_policy (fun _ => .error ()) ["pitch row gamma"]).1⟩

end
